import Mathlib

/-!
Verification of the core ray-tracing engine of the Graphics repository:
AABB/interval arithmetic, the slab ray-box test, sphere intersection,
the linear-scan aggregate, the BVH builder and traversal, the material
scattering model, and the recursive integrator.

C++ `double` values are modelled as exact real numbers.  Interval
endpoints and the parametric values of the slab test additionally range
over the IEEE-754 special values (the two infinities and NaN), which the
source relies on (`aabb.h` line 77 cites the IEEE rule for `1.0/0.0`,
and `interval::empty`/`interval::universe` have infinite endpoints);
they are modelled by the four-constructor type `Ext` below.
-/

namespace Graphics

open scoped Classical

/-- An IEEE-754 double value as it appears in interval endpoints and in
the slab test of the source: NaN, negative infinity, a finite real, or
positive infinity. -/
inductive Ext where
  | nan : Ext
  | ninf : Ext
  | fin (v : ℝ) : Ext
  | pinf : Ext

/-- Strict comparison `a < b` of IEEE doubles: any comparison involving
NaN is false, and the infinities compare as expected. -/
def Ext.lt : Ext → Ext → Prop
  | .ninf, .fin _ => True
  | .ninf, .pinf => True
  | .fin _, .pinf => True
  | .fin a, .fin b => a < b
  | _, _ => False

/-- Non-strict comparison `a <= b` of IEEE doubles: false whenever NaN
is involved, true between equal infinities. -/
def Ext.le : Ext → Ext → Prop
  | .ninf, .ninf => True
  | .ninf, .fin _ => True
  | .ninf, .pinf => True
  | .fin a, .fin b => a ≤ b
  | .fin _, .pinf => True
  | .pinf, .pinf => True
  | _, _ => False

/-- IEEE subtraction `a - b`; `∞ - ∞` of equal signs is NaN. -/
def Ext.sub : Ext → Ext → Ext
  | .fin a, .fin b => .fin (a - b)
  | .fin _, .ninf => .pinf
  | .fin _, .pinf => .ninf
  | .pinf, .fin _ => .pinf
  | .pinf, .ninf => .pinf
  | .ninf, .fin _ => .ninf
  | .ninf, .pinf => .ninf
  | _, _ => .nan

/-- IEEE addition `a + b`; `∞ + (-∞)` is NaN. -/
def Ext.add : Ext → Ext → Ext
  | .fin a, .fin b => .fin (a + b)
  | .fin _, .ninf => .ninf
  | .fin _, .pinf => .pinf
  | .pinf, .fin _ => .pinf
  | .pinf, .pinf => .pinf
  | .ninf, .fin _ => .ninf
  | .ninf, .ninf => .ninf
  | _, _ => .nan

/-- IEEE multiplication `a * b`; `0 * ∞` is NaN. -/
noncomputable def Ext.mul : Ext → Ext → Ext
  | .fin a, .fin b => .fin (a * b)
  | .fin a, .pinf => if 0 < a then .pinf else if a < 0 then .ninf else .nan
  | .fin a, .ninf => if 0 < a then .ninf else if a < 0 then .pinf else .nan
  | .pinf, .fin b => if 0 < b then .pinf else if b < 0 then .ninf else .nan
  | .ninf, .fin b => if 0 < b then .ninf else if b < 0 then .pinf else .nan
  | .pinf, .pinf => .pinf
  | .pinf, .ninf => .ninf
  | .ninf, .pinf => .ninf
  | .ninf, .ninf => .pinf
  | _, _ => .nan

/-- Modelled from the spec: the repository's `interval.h` is not under
src/ (only its includers are). Per the spec's data model, an interval is
`[min, max]` on the real line, empty when `min > max`; endpoints may be
infinite (`universe` spans all reals, and `aabb.h` line 118 uses an
`interval::empty` constant with inverted infinite endpoints). -/
structure Interval where
  min : Ext
  max : Ext

/-- Modelled from the spec: the empty interval constant
(`min > max`, realised with inverted infinite endpoints). -/
def Interval.emptyI : Interval := ⟨.pinf, .ninf⟩

/-- Modelled from the spec: the universe interval spanning all reals. -/
def Interval.universeI : Interval := ⟨.ninf, .pinf⟩

/-- Modelled from the spec: interval size `max - min`. -/
def Interval.size (i : Interval) : Ext := Ext.sub i.max i.min

/-- Modelled from the spec: expansion pads the interval by `delta / 2`
on each side. -/
noncomputable def Interval.expand (i : Interval) (delta : ℝ) : Interval :=
  ⟨Ext.sub i.min (.fin (delta / 2)), Ext.add i.max (.fin (delta / 2))⟩

/-- Modelled from the spec: merge of two intervals (union envelope),
taking the smaller `min` and the larger `max`. -/
noncomputable def Interval.merge (a b : Interval) : Interval :=
  ⟨if Ext.le a.min b.min then a.min else b.min,
   if Ext.le b.max a.max then a.max else b.max⟩

/-- Modelled from the spec: the open surrounding test
`min < x && x < max`. -/
def Interval.surrounds (i : Interval) (x : ℝ) : Prop :=
  Ext.lt i.min (.fin x) ∧ Ext.lt (.fin x) i.max

/-- An interval is non-empty when `min <= max` (spec: "empty when
`min > max`"). -/
def Interval.nonEmptyI (i : Interval) : Prop := Ext.le i.min i.max

/-- One interval is included in another (used to state containment of
merged boxes). -/
def Interval.isSubsetOf (a b : Interval) : Prop :=
  Ext.le b.min a.min ∧ Ext.le a.max b.max

/-- 3-component vector of `vec3.h`; points and colors share this
representation. -/
structure Vec3 where
  x : ℝ
  y : ℝ
  z : ℝ

namespace Vec3

def add (u v : Vec3) : Vec3 := ⟨u.x + v.x, u.y + v.y, u.z + v.z⟩

def sub (u v : Vec3) : Vec3 := ⟨u.x - v.x, u.y - v.y, u.z - v.z⟩

def neg (v : Vec3) : Vec3 := ⟨-v.x, -v.y, -v.z⟩

/-- Componentwise product (`operator*(vec3, vec3)`). -/
def cmul (u v : Vec3) : Vec3 := ⟨u.x * v.x, u.y * v.y, u.z * v.z⟩

/-- Scalar multiple (`operator*(double, vec3)`). -/
def smul (t : ℝ) (v : Vec3) : Vec3 := ⟨t * v.x, t * v.y, t * v.z⟩

/-- `operator/(vec3, double)` is defined in the source as `(1/t) * v`. -/
noncomputable def divs (v : Vec3) (t : ℝ) : Vec3 := smul (1 / t) v

def dot (u v : Vec3) : ℝ := u.x * v.x + u.y * v.y + u.z * v.z

def lengthSquared (v : Vec3) : ℝ := v.x * v.x + v.y * v.y + v.z * v.z

noncomputable def length (v : Vec3) : ℝ := Real.sqrt v.lengthSquared

/-- All components below the `1e-18` threshold of `vec3::near_zero`. -/
def nearZero (v : Vec3) : Prop :=
  |v.x| < 1e-18 ∧ |v.y| < 1e-18 ∧ |v.z| < 1e-18

noncomputable def unitVector (v : Vec3) : Vec3 := v.divs v.length

/-- Mirror reflection `v - 2*dot(v,n)*n`. -/
def reflect (v n : Vec3) : Vec3 := v.sub (smul (2 * dot v n) n)

/-- Snell refraction as implemented in `vec3.h` (the narrowing of
`cos_theta` to `float` in the source is modelled as exact). -/
noncomputable def refract (uv n : Vec3) (etaiOverEtat : ℝ) : Vec3 :=
  let cosTheta := min (dot uv.neg n) 1
  let rOutPerp := smul etaiOverEtat (uv.add (smul cosTheta n))
  let rOutParallel := smul (-Real.sqrt |1 - rOutPerp.lengthSquared|) n
  rOutPerp.add rOutParallel

end Vec3

/-- Modelled from the spec: the repository's `ray.h` is not under src/.
A ray is an origin point, a direction vector and a time of capture, with
`at(t) = origin + t * direction`. -/
structure Ray where
  origin : Vec3
  dir : Vec3
  time : ℝ

/-- Modelled from the spec: the point `origin + t * direction`. -/
def Ray.at (r : Ray) (t : ℝ) : Vec3 := r.origin.add (Vec3.smul t r.dir)

/-- Axis-aligned bounding box: one interval per axis (`aabb` class). -/
structure Aabb where
  x : Interval
  y : Interval
  z : Interval

/-- The minimum-thickness constant `delta = 0.0001` of
`aabb::pad_to_minimums`. -/
noncomputable def padDelta : ℝ := 0.0001

/-- `aabb::pad_to_minimums` exactly as written in the source
(aabb.h lines 108-115): all three branches assign their padded interval
to the member `x`; the `y` and `z` members are never updated. -/
noncomputable def Aabb.padToMinimums (b : Aabb) : Aabb :=
  let x1 := if Ext.lt b.x.size (.fin padDelta) then b.x.expand padDelta else b.x
  let x2 := if Ext.lt b.y.size (.fin padDelta) then b.y.expand padDelta else x1
  let x3 := if Ext.lt b.z.size (.fin padDelta) then b.z.expand padDelta else x2
  ⟨x3, b.y, b.z⟩

/-- The `aabb(interval, interval, interval)` constructor, which pads. -/
noncomputable def aabbOfIntervals (ix iy iz : Interval) : Aabb :=
  Aabb.padToMinimums ⟨ix, iy, iz⟩

/-- The `aabb(point3, point3)` constructor: per-axis ordering of the two
extremal points, then padding. -/
noncomputable def aabbOfPoints (a b : Vec3) : Aabb :=
  Aabb.padToMinimums
    ⟨if a.x ≤ b.x then ⟨.fin a.x, .fin b.x⟩ else ⟨.fin b.x, .fin a.x⟩,
     if a.y ≤ b.y then ⟨.fin a.y, .fin b.y⟩ else ⟨.fin b.y, .fin a.y⟩,
     if a.z ≤ b.z then ⟨.fin a.z, .fin b.z⟩ else ⟨.fin b.z, .fin a.z⟩⟩

/-- The `aabb(aabb, aabb)` merge constructor: per-axis interval merge,
with no padding (aabb.h lines 52-56). -/
noncomputable def aabbMerge (b0 b1 : Aabb) : Aabb :=
  ⟨b0.x.merge b1.x, b0.y.merge b1.y, b0.z.merge b1.z⟩

/-- The `aabb::empty` constant: built through the padding constructor
from three empty intervals (aabb.h line 118). -/
noncomputable def aabbEmpty : Aabb :=
  aabbOfIntervals Interval.emptyI Interval.emptyI Interval.emptyI

/-- `aabb::axis_interval`: 1 selects y, 2 selects z, anything else x. -/
def Aabb.axisInterval (b : Aabb) (n : Nat) : Interval :=
  if n = 1 then b.y else if n = 2 then b.z else b.x

/-- `aabb::longest_axis`. -/
noncomputable def Aabb.longestAxis (b : Aabb) : Nat :=
  if Ext.lt b.y.size b.x.size then
    (if Ext.lt b.z.size b.x.size then 0 else 2)
  else
    (if Ext.lt b.z.size b.y.size then 1 else 2)

/-- One axis of the slab test of `aabb::hit`: computes
`t0 = (ax.min - orig) * adinv` and `t1 = (ax.max - orig) * adinv` with
`adinv = 1/dir` (IEEE: `+infinity` when `dir` is zero) and narrows the
running interval exactly as the source's comparison-and-assign code
does (NaN comparisons are false). -/
noncomputable def slabAxis (ax : Interval) (orig dir : ℝ) (rt : Interval) : Interval :=
  let adinv : Ext := if dir = 0 then .pinf else .fin (1 / dir)
  let t0 := Ext.mul (Ext.sub ax.min (.fin orig)) adinv
  let t1 := Ext.mul (Ext.sub ax.max (.fin orig)) adinv
  if Ext.lt t0 t1 then
    ⟨if Ext.lt rt.min t0 then t0 else rt.min,
     if Ext.lt t1 rt.max then t1 else rt.max⟩
  else
    ⟨if Ext.lt rt.min t1 then t1 else rt.min,
     if Ext.lt t0 rt.max then t0 else rt.max⟩

/-- `aabb::hit`: the slab test over the three axes in order, with the
source's early exit `if (ray_t.max <= ray_t.min) return false` after
each axis. -/
noncomputable def aabbHit (b : Aabb) (r : Ray) (rt : Interval) : Bool :=
  let rt0 := slabAxis b.x r.origin.x r.dir.x rt
  if Ext.le rt0.max rt0.min then false else
  let rt1 := slabAxis b.y r.origin.y r.dir.y rt0
  if Ext.le rt1.max rt1.min then false else
  let rt2 := slabAxis b.z r.origin.z r.dir.z rt1
  if Ext.le rt2.max rt2.min then false else true

/-- The closed set of material variants of `material.h`.  `blank` is the
non-overridden base class whose `scatter` returns false; a lambertian
carries its texture as an opaque sampling function (spec: textures are
an external dependency `value(u, v, point) -> color`). -/
inductive Material where
  | blank : Material
  | lambertian (tex : ℝ → ℝ → Vec3 → Vec3) : Material
  | metal (albedo : Vec3) (fuzz : ℝ) : Material
  | dielectric (refractionIndex : ℝ) : Material

/-- The `metal` constructor: `fuzz(fuzz < 1 ? fuzz : 1)`. -/
noncomputable def metalMk (albedo : Vec3) (fuzz : ℝ) : Material :=
  .metal albedo (if fuzz < 1 then fuzz else 1)

/-- The fuzz factor stored in a metal material (0 for other variants). -/
def Material.fuzzOf : Material → ℝ
  | .metal _ f => f
  | _ => 0

/-- The `hit_record` struct: hit point, normal, material, parameter `t`,
texture coordinates and the front-face flag. -/
structure HitRec where
  p : Vec3
  normal : Vec3
  mat : Material
  t : ℝ
  u : ℝ
  v : ℝ
  frontFace : Bool

/-- The default-constructed `hit_record` (the source's uninitialized
locals are modelled as zeroed; no code path reads a field before
writing it). -/
def defaultRec : HitRec := ⟨⟨0, 0, 0⟩, ⟨0, 0, 0⟩, .blank, 0, 0, 0, false⟩

/-- `hit_record::set_face_normal`: the stored normal opposes the ray;
`front_face` is `dot(dir, outward) < 0`. -/
noncomputable def setFaceNormal (r : Ray) (outward : Vec3) : Bool × Vec3 :=
  if Vec3.dot r.dir outward < 0 then (true, outward) else (false, outward.neg)

/-- One draw from the per-bounce random sources the materials consume:
a sampled unit vector (`random_unit_vector`) and a uniform real in
`[0,1)` (`random_double`). Randomness is an external oracle. -/
structure RandSrc where
  unitVec : Vec3
  draw : ℝ

/-- `lambertian::scatter`: outgoing direction `normal + random unit
vector`, falling back to the normal when near zero. -/
noncomputable def lambertianScatter (tex : ℝ → ℝ → Vec3 → Vec3) (rIn : Ray)
    (rec : HitRec) (rnd : RandSrc) : Bool × Vec3 × Ray :=
  let scatterDirection := rec.normal.add rnd.unitVec
  let scatterDirection := if scatterDirection.nearZero then rec.normal else scatterDirection
  (true, tex rec.u rec.v rec.p, ⟨rec.p, scatterDirection, rIn.time⟩)

/-- `metal::scatter`: mirror reflection, renormalised and fuzzed;
reports absorption unless the result is in the normal's hemisphere. -/
noncomputable def metalScatter (albedo : Vec3) (fuzz : ℝ) (rIn : Ray)
    (rec : HitRec) (rnd : RandSrc) : Bool × Vec3 × Ray :=
  let reflected := Vec3.reflect rIn.dir rec.normal
  let reflected := (Vec3.unitVector reflected).add (Vec3.smul fuzz rnd.unitVec)
  let scattered : Ray := ⟨rec.p, reflected, rIn.time⟩
  (if 0 < Vec3.dot scattered.dir rec.normal then true else false, albedo, scattered)

/-- Schlick's reflectance approximation (`dielectric::reflectance`). -/
noncomputable def reflectance (cosine refractionIndex : ℝ) : ℝ :=
  let r0 := (1 - refractionIndex) / (1 + refractionIndex)
  let r0 := r0 * r0
  r0 + (1 - r0) * (1 - cosine) ^ (5 : ℕ)

/-- `dielectric::scatter` exactly as written in the source
(material.h lines 65-84): it refracts when `can_refract` holds or when
the Schlick reflectance exceeds the random draw, and reflects only
otherwise. -/
noncomputable def dielectricScatter (refractionIndex : ℝ) (rIn : Ray)
    (rec : HitRec) (rnd : RandSrc) : Bool × Vec3 × Ray :=
  let ri := if rec.frontFace then 1 / refractionIndex else refractionIndex
  let unitDirection := Vec3.unitVector rIn.dir
  let cosTheta := min (Vec3.dot unitDirection.neg rec.normal) 1
  let sinTheta := Real.sqrt (1 - cosTheta * cosTheta)
  let canRefract := ri * sinTheta ≤ 1
  let direction :=
    if canRefract ∨ reflectance cosTheta ri > rnd.draw then
      Vec3.refract unitDirection rec.normal ri
    else
      Vec3.reflect unitDirection rec.normal
  (true, ⟨1, 1, 1⟩, ⟨rec.p, direction, rIn.time⟩)

/-- Dynamic dispatch of `material::scatter` over the variants. -/
noncomputable def Material.scatter : Material → Ray → HitRec → RandSrc → Bool × Vec3 × Ray
  | .blank, _, _, _ => (false, ⟨0, 0, 0⟩, ⟨⟨0, 0, 0⟩, ⟨0, 0, 0⟩, 0⟩)
  | .lambertian tex, rIn, rec, rnd => lambertianScatter tex rIn rec rnd
  | .metal albedo fuzz, rIn, rec, rnd => metalScatter albedo fuzz rIn rec rnd
  | .dielectric ri, rIn, rec, rnd => dielectricScatter ri rIn rec rnd

/-- The `sphere` primitive: the source stores the (possibly moving)
center as a `ray` whose origin is the start center and whose direction
is the motion, the radius, the material and a precomputed box. -/
structure Sphere where
  center : Ray
  radius : ℝ
  mat : Material
  bbox : Aabb

/-- The stationary-sphere constructor: center ray with zero motion,
radius clamped by `fmax(0, radius)`, box from the two extremal points
(the box uses the constructor parameter `radius`, which shadows the
clamped member inside the constructor body). -/
noncomputable def sphereStatic (staticCenter : Vec3) (radius : ℝ) (mat : Material) : Sphere :=
  let rvec : Vec3 := ⟨radius, radius, radius⟩
  ⟨⟨staticCenter, ⟨0, 0, 0⟩, 0⟩, max 0 radius, mat,
   aabbOfPoints (staticCenter.sub rvec) (staticCenter.add rvec)⟩

/-- The moving-sphere constructor: center ray from `center1` toward
`center2`, box merged from the boxes at times 0 and 1. -/
noncomputable def sphereMoving (center1 center2 : Vec3) (radius : ℝ) (mat : Material) : Sphere :=
  let rvec : Vec3 := ⟨radius, radius, radius⟩
  let center : Ray := ⟨center1, center2.sub center1, 0⟩
  let box1 := aabbOfPoints ((center.at 0).sub rvec) ((center.at 0).add rvec)
  let box2 := aabbOfPoints ((center.at 1).sub rvec) ((center.at 1).add rvec)
  ⟨center, max 0 radius, mat, aabbMerge box1 box2⟩

/-- The two-argument arctangent `std::atan2(y, x)` used by the sphere's
UV parameterization. -/
noncomputable def atan2 (y x : ℝ) : ℝ :=
  if 0 < x then Real.arctan (y / x)
  else if x < 0 then
    (if 0 ≤ y then Real.arctan (y / x) + Real.pi else Real.arctan (y / x) - Real.pi)
  else
    (if 0 < y then Real.pi / 2 else if y < 0 then -(Real.pi / 2) else 0)

/-- `sphere::get_sphere_uv`: `theta = acos(-p.y)`,
`phi = atan2(-p.z, p.x) + pi`, `u = phi/(2 pi)`, `v = theta/pi`. -/
noncomputable def sphereUV (p : Vec3) : ℝ × ℝ :=
  let theta := Real.arccos (-p.y)
  let phi := atan2 (-p.z) p.x + Real.pi
  (phi / (2 * Real.pi), theta / Real.pi)

/-- The sphere center at the ray's time (`center.at(r.time())`). -/
def sphereCenterAt (s : Sphere) (time : ℝ) : Vec3 := s.center.at time

/-- The vector `oc = current_center - origin` of `sphere::hit`. -/
def sphereOC (s : Sphere) (r : Ray) : Vec3 := (sphereCenterAt s r.time).sub r.origin

/-- The quadratic coefficient `a = |D|^2` of `sphere::hit`. -/
def sphereA (s : Sphere) (r : Ray) : ℝ := r.dir.lengthSquared

/-- The half-form coefficient `h = dot(D, oc)` of `sphere::hit`. -/
def sphereHcoef (s : Sphere) (r : Ray) : ℝ := Vec3.dot r.dir (sphereOC s r)

/-- The constant coefficient `c = |oc|^2 - radius^2` of `sphere::hit`. -/
def sphereCcoef (s : Sphere) (r : Ray) : ℝ :=
  (sphereOC s r).lengthSquared - s.radius * s.radius

/-- The half-form discriminant `h*h - a*c` of `sphere::hit`. -/
def sphereDisc (s : Sphere) (r : Ray) : ℝ :=
  sphereHcoef s r * sphereHcoef s r - sphereA s r * sphereCcoef s r

/-- The smaller candidate root `(h - sqrt(discriminant)) / a`. -/
noncomputable def sphereRoot1 (s : Sphere) (r : Ray) : ℝ :=
  (sphereHcoef s r - Real.sqrt (sphereDisc s r)) / sphereA s r

/-- The larger candidate root `(h + sqrt(discriminant)) / a`. -/
noncomputable def sphereRoot2 (s : Sphere) (r : Ray) : ℝ :=
  (sphereHcoef s r + Real.sqrt (sphereDisc s r)) / sphereA s r

/-- The hit record written by `sphere::hit` for a validated root:
point, face-corrected normal, UV coordinates and material. -/
noncomputable def sphereWriteRec (s : Sphere) (r : Ray) (root : ℝ) : HitRec :=
  let p := r.at root
  let outwardNormal := (p.sub (sphereCenterAt s r.time)).divs s.radius
  let fn := setFaceNormal r outwardNormal
  let uv := sphereUV outwardNormal
  ⟨p, fn.2, s.mat, root, uv.1, uv.2, fn.1⟩

/-- `sphere::hit`: reject on a negative discriminant, otherwise accept
the smaller root if the interval surrounds it, else the larger root,
else report no hit. -/
noncomputable def sphereHit (s : Sphere) (r : Ray) (rt : Interval) (rec : HitRec) :
    Bool × HitRec :=
  if sphereDisc s r < 0 then (false, rec)
  else if rt.surrounds (sphereRoot1 s r) then (true, sphereWriteRec s r (sphereRoot1 s r))
  else if rt.surrounds (sphereRoot2 s r) then (true, sphereWriteRec s r (sphereRoot2 s r))
  else (false, rec)

/-- The closed set of hittable variants: the sphere primitive, the flat
`hittable_list` aggregate, and a `bvh_node` with its two children and
precomputed box. -/
inductive Hittable where
  | sph (s : Sphere) : Hittable
  | lst (hs : List Hittable) : Hittable
  | node (lft rgt : Hittable) (bbox : Aabb) : Hittable

mutual

/-- `bounding_box()` of each variant; a list's box is the fold of its
members' boxes starting from the default (empty) box, as built
incrementally by `hittable_list::add`. -/
noncomputable def bboxOf : Hittable → Aabb
  | .sph s => s.bbox
  | .lst hs => bboxFold ⟨Interval.emptyI, Interval.emptyI, Interval.emptyI⟩ hs
  | .node _ _ bb => bb

/-- The running merge `bbox = aabb(bbox, member->bounding_box())` of
`hittable_list::add`, left to right. -/
noncomputable def bboxFold : Aabb → List Hittable → Aabb
  | acc, [] => acc
  | acc, h :: t => bboxFold (aabbMerge acc (bboxOf h)) t

end

mutual

/-- `hit` of each variant, with the C++ in-out `hit_record` made
explicit: the result pairs the returned boolean with the record left in
the caller's variable. -/
noncomputable def hitH : Hittable → Ray → Interval → HitRec → Bool × HitRec
  | .sph s, r, rt, rec => sphereHit s r rt rec
  | .lst hs, r, rt, rec => hitList hs r rt.min rt.max defaultRec false rec
  | .node lft rgt bb, r, rt, rec =>
    if aabbHit bb r rt = false then (false, rec)
    else
      let resL := hitH lft r rt rec
      let resR := hitH rgt r ⟨rt.min, if resL.1 then .fin resL.2.t else rt.max⟩ resL.2
      (resL.1 || resR.1, resR.2)

/-- The member loop of `hittable_list::hit`: each member is queried
with `interval(ray_t.min, closest_so_far)` against the shared
`temp_rec`; on a hit the closest bound shrinks to the reported `t` and
the caller's record is overwritten. -/
noncomputable def hitList : List Hittable → Ray → Ext → Ext → HitRec → Bool → HitRec →
    Bool × HitRec
  | [], _, _, _, _, hitAnything, rec => (hitAnything, rec)
  | h :: rest, r, tmin, closest, temp, hitAnything, rec =>
    let res := hitH h r ⟨tmin, closest⟩ temp
    if res.1 then hitList rest r tmin (.fin res.2.t) res.2 true res.2
    else hitList rest r tmin closest res.2 hitAnything rec

end

/-- The comparator of the BVH build: ascending minimum bound of the
members' boxes on the chosen axis (`bvh_node::box_compare`; the order
of elements with equal keys is unspecified in `std::sort` and is fixed
here by a merge sort). -/
noncomputable def boxLe (axis : Nat) (a b : Hittable) : Bool :=
  if Ext.le ((bboxOf a).axisInterval axis).min ((bboxOf b).axisInterval axis).min then
    true
  else false

/-- The recursive BVH builder over a span of primitives
(`bvh_node::bvh_node(hittables, start, end)`): union box of the span,
split axis from its longest axis, aliased single child for a span of
one, the two elements for a span of two, otherwise sort by box minimum
on the axis and recurse on the two halves around `span / 2`.  An empty
span never terminates in the source and is mapped to an empty list
node (the spec marks it a caller precondition violation). -/
noncomputable def bvhBuild (hs : List Hittable) : Hittable :=
  let bb := bboxFold aabbEmpty hs
  let axis := bb.longestAxis
  match hs with
  | [] => .lst []
  | [a] => .node a a bb
  | [a, b] => .node a b bb
  | a :: b :: c :: rest =>
    let sorted := (a :: b :: c :: rest).mergeSort (boxLe axis)
    let mid := (a :: b :: c :: rest).length / 2
    .node (bvhBuild (sorted.take mid)) (bvhBuild (sorted.drop mid)) bb
termination_by hs.length
decreasing_by
  · simp [List.length_take, List.length_mergeSort]; omega
  · simp [List.length_drop, List.length_mergeSort]; omega

/-- The background gradient of `camera::ray_color` for a ray that
escapes all geometry. -/
noncomputable def skyColor (r : Ray) : Vec3 :=
  let unitDirection := Vec3.unitVector r.dir
  let a := 0.5 * (unitDirection.y + 1)
  (Vec3.smul (1 - a) ⟨1, 1, 1⟩).add (Vec3.smul a ⟨0.5, 0.7, 1⟩)

/-- `camera::ray_color`: returns black when the depth budget is
exhausted; otherwise queries the world on `interval(0.001, infinity)`,
scatters on a hit (black if absorbed) and recurses with `depth - 1`,
or returns the background gradient on a miss.  The per-bounce random
sources are supplied by an oracle indexed by the remaining depth. -/
noncomputable def rayColor (world : Hittable) (oracle : Nat → RandSrc) :
    Ray → Nat → Vec3
  | _, 0 => ⟨0, 0, 0⟩
  | r, depth + 1 =>
    let res := hitH world r ⟨.fin 0.001, .pinf⟩ defaultRec
    if res.1 then
      let sc := Material.scatter res.2.mat r res.2 (oracle depth)
      if sc.1 then (sc.2.1).cmul (rayColor world oracle sc.2.2 depth)
      else ⟨0, 0, 0⟩
    else skyColor r

/-- Instrumented `ray_color`: same recursion, returning alongside the
color the number of nested recursive invocations actually performed. -/
noncomputable def rayColorSteps (world : Hittable) (oracle : Nat → RandSrc) :
    Ray → Nat → Vec3 × Nat
  | _, 0 => (⟨0, 0, 0⟩, 0)
  | r, depth + 1 =>
    let res := hitH world r ⟨.fin 0.001, .pinf⟩ defaultRec
    if res.1 then
      let sc := Material.scatter res.2.mat r res.2 (oracle depth)
      if sc.1 then
        let inner := rayColorSteps world oracle sc.2.2 depth
        ((sc.2.1).cmul inner.1, inner.2 + 1)
      else (⟨0, 0, 0⟩, 0)
    else (skyColor r, 0)

/-- Stated from the claim's words, for comparison with `sphereHit`: no
hit when the half-form discriminant is negative; otherwise the smaller
root when the query interval surrounds it, else the larger root when
the interval surrounds that one, else no hit. -/
noncomputable def sphereHitSpecT (s : Sphere) (r : Ray) (rt : Interval) : Option ℝ :=
  if sphereDisc s r < 0 then none
  else if rt.surrounds (sphereRoot1 s r) then some (sphereRoot1 s r)
  else if rt.surrounds (sphereRoot2 s r) then some (sphereRoot2 s r)
  else none

/-- The query interval `(0.001, +infinity)` used by the integrator and
by the concrete intersection checks below. -/
noncomputable def queryAll : Interval := ⟨.fin 0.001, .pinf⟩

/-- A thin sphere (radius `1e-5`, below the `1e-4` padding threshold)
at `(100,0,0)`: its stored box is corrupted by `pad_to_minimums`. -/
noncomputable def thinSphereX : Sphere := sphereStatic ⟨100, 0, 0⟩ (1/100000) .blank

/-- A ray from `(99,0,0)` along `+x`, aimed straight at the center of
`thinSphereX`. -/
def rayAtThinX : Ray := ⟨⟨99, 0, 0⟩, ⟨1, 0, 0⟩, 0⟩

/-- A thin sphere (radius `1e-5`) at `(0,0,100)`. -/
noncomputable def thinSphereZ : Sphere := sphereStatic ⟨0, 0, 100⟩ (1/100000) .blank

/-- A unit sphere at `(49,0,100)`, on the same line as `thinSphereZ`
as seen from `listRayZ` but much farther along the ray. -/
noncomputable def farSphere : Sphere := sphereStatic ⟨49, 0, 100⟩ 1 .blank

/-- A ray from `(-1,0,100)` along `+x`: it meets `thinSphereZ` at
`t = 0.99999` and `farSphere` at `t = 49`. -/
def listRayZ : Ray := ⟨⟨-1, 0, 100⟩, ⟨1, 0, 0⟩, 0⟩

/-- A two-member list: the far unit sphere first, then a single-element
BVH over the thin sphere. -/
noncomputable def twoMemberScene : Hittable :=
  .lst [.sph farSphere, bvhBuild [.sph thinSphereZ]]

/-- The unit-test sphere of the spec's end-to-end scenario: radius 0.5
at `(0,0,-1)`. -/
noncomputable def frontSphere : Sphere := sphereStatic ⟨0, 0, -1⟩ (1/2) .blank

/-- A ray from the origin through the center of `frontSphere`. -/
def frontRay : Ray := ⟨⟨0, 0, 0⟩, ⟨0, 0, -1⟩, 0⟩

/-- A unit sphere at the origin, used for a guaranteed miss. -/
noncomputable def missSphere : Sphere := sphereStatic ⟨0, 0, 0⟩ 1 .blank

/-- A ray that passes well clear of `missSphere` (negative
discriminant). -/
def missRay : Ray := ⟨⟨10, 0, 0⟩, ⟨0, 1, 0⟩, 0⟩

/-- A hit record for a ray exiting a dielectric of index 2
(`front_face = false`), with normal `(0,1,0)`. -/
def exitRec : HitRec := ⟨⟨0, 0, 0⟩, ⟨0, 1, 0⟩, .dielectric 2, 1, 0, 0, false⟩

/-- The incoming ray for the dielectric check: unit direction
`(3/5, -4/5, 0)`, giving `cos_theta = 4/5` and `sin_theta = 3/5`
against the normal of `exitRec`. -/
noncomputable def exitRay : Ray := ⟨⟨0, 0, 0⟩, ⟨3/5, -4/5, 0⟩, 0⟩

/-- A random source whose uniform draw `0.01` is below the Schlick
reflectance of the dielectric check. -/
noncomputable def smallDraw : RandSrc := ⟨⟨0, 0, 0⟩, 1/100⟩

@[simp] theorem Ext.lt_fin_fin {a b : ℝ} : Ext.lt (.fin a) (.fin b) ↔ a < b := Iff.rfl

@[simp] theorem Ext.le_fin_fin {a b : ℝ} : Ext.le (.fin a) (.fin b) ↔ a ≤ b := Iff.rfl

@[simp] theorem Ext.lt_fin_pinf {a : ℝ} : Ext.lt (.fin a) .pinf := trivial

@[simp] theorem Ext.lt_ninf_fin {a : ℝ} : Ext.lt .ninf (.fin a) := trivial

@[simp] theorem Ext.lt_ninf_pinf : Ext.lt .ninf .pinf := trivial

@[simp] theorem Ext.not_lt_pinf {x : Ext} : ¬ Ext.lt .pinf x := by cases x <;> exact id

@[simp] theorem Ext.not_lt_ninf {x : Ext} : ¬ Ext.lt x .ninf := by cases x <;> exact id

@[simp] theorem Ext.not_lt_nan_left {x : Ext} : ¬ Ext.lt .nan x := by cases x <;> exact id

@[simp] theorem Ext.not_lt_nan_right {x : Ext} : ¬ Ext.lt x .nan := by cases x <;> exact id

@[simp] theorem Ext.not_le_pinf_fin {a : ℝ} : ¬ Ext.le .pinf (.fin a) := id

@[simp] theorem Ext.not_le_fin_ninf {a : ℝ} : ¬ Ext.le (.fin a) .ninf := id

@[simp] theorem Ext.le_fin_pinf {a : ℝ} : Ext.le (.fin a) .pinf := trivial

@[simp] theorem Ext.le_ninf_fin {a : ℝ} : Ext.le .ninf (.fin a) := trivial

@[simp] theorem Ext.le_pinf_pinf : Ext.le .pinf .pinf := trivial

@[simp] theorem Ext.le_ninf_ninf : Ext.le .ninf .ninf := trivial

@[simp] theorem Ext.not_le_pinf_ninf : ¬ Ext.le .pinf .ninf := id

@[simp] theorem Ext.not_le_nan_left {x : Ext} : ¬ Ext.le .nan x := by cases x <;> exact id

@[simp] theorem Ext.not_le_nan_right {x : Ext} : ¬ Ext.le x .nan := by cases x <;> exact id

@[simp] theorem Ext.sub_fin_fin {a b : ℝ} : Ext.sub (.fin a) (.fin b) = .fin (a - b) := rfl

@[simp] theorem Ext.sub_pinf_fin {b : ℝ} : Ext.sub .pinf (.fin b) = .pinf := rfl

@[simp] theorem Ext.sub_ninf_fin {b : ℝ} : Ext.sub .ninf (.fin b) = .ninf := rfl

@[simp] theorem Ext.sub_ninf_pinf : Ext.sub .ninf .pinf = .ninf := rfl

@[simp] theorem Ext.add_fin_fin {a b : ℝ} : Ext.add (.fin a) (.fin b) = .fin (a + b) := rfl

@[simp] theorem Ext.add_pinf_fin {b : ℝ} : Ext.add .pinf (.fin b) = .pinf := rfl

@[simp] theorem Ext.add_ninf_fin {b : ℝ} : Ext.add .ninf (.fin b) = .ninf := rfl

@[simp] theorem Ext.mul_fin_fin {a b : ℝ} : Ext.mul (.fin a) (.fin b) = .fin (a * b) := rfl

@[simp] theorem Ext.mul_fin_pinf {a : ℝ} :
    Ext.mul (.fin a) .pinf = if 0 < a then .pinf else if a < 0 then .ninf else .nan := rfl

@[simp] theorem Ext.mul_fin_ninf {a : ℝ} :
    Ext.mul (.fin a) .ninf = if 0 < a then .ninf else if a < 0 then .pinf else .nan := rfl

theorem Ext.ne_nan_of_le_left {x y : Ext} (h : Ext.le x y) : x ≠ .nan := by
  cases x <;> cases y <;> simp_all [Ext.le]

theorem Ext.ne_nan_of_le_right {x y : Ext} (h : Ext.le x y) : y ≠ .nan := by
  cases x <;> cases y <;> simp_all [Ext.le]

theorem Ext.le_refl_of_ne_nan {x : Ext} (h : x ≠ .nan) : Ext.le x x := by
  cases x <;> simp_all [Ext.le]

theorem Ext.le_of_not_le {x y : Ext} (hx : x ≠ .nan) (hy : y ≠ .nan)
    (h : ¬ Ext.le x y) : Ext.le y x := by
  cases x <;> cases y <;> simp_all [Ext.le] <;> linarith

@[simp] theorem Vec3.add_def (a b c d e f : ℝ) :
    Vec3.add ⟨a, b, c⟩ ⟨d, e, f⟩ = ⟨a + d, b + e, c + f⟩ := rfl

@[simp] theorem Vec3.sub_def (a b c d e f : ℝ) :
    Vec3.sub ⟨a, b, c⟩ ⟨d, e, f⟩ = ⟨a - d, b - e, c - f⟩ := rfl

@[simp] theorem Vec3.neg_def (a b c : ℝ) : Vec3.neg ⟨a, b, c⟩ = ⟨-a, -b, -c⟩ := rfl

@[simp] theorem Vec3.smul_def (t a b c : ℝ) :
    Vec3.smul t ⟨a, b, c⟩ = ⟨t * a, t * b, t * c⟩ := rfl

@[simp] theorem Vec3.dot_def (a b c d e f : ℝ) :
    Vec3.dot ⟨a, b, c⟩ ⟨d, e, f⟩ = a * d + b * e + c * f := rfl

@[simp] theorem Vec3.lengthSquared_def (a b c : ℝ) :
    Vec3.lengthSquared ⟨a, b, c⟩ = a * a + b * b + c * c := rfl

@[simp] theorem sphereWriteRec_t (s : Sphere) (r : Ray) (root : ℝ) :
    (sphereWriteRec s r root).t = root := rfl

@[simp] theorem sphereStatic_center (c : Vec3) (rad : ℝ) (m : Material) (t : ℝ) :
    sphereCenterAt (sphereStatic c rad m) t = c := by
  cases c
  simp [sphereStatic, sphereCenterAt, Ray.at, Vec3.smul, Vec3.add]

@[simp] theorem sphereStatic_radius (c : Vec3) (rad : ℝ) (m : Material) :
    (sphereStatic c rad m).radius = max 0 rad := rfl

theorem Interval.merge_emptyI_left (i : Interval) : Interval.merge Interval.emptyI i = i := by
  obtain ⟨mn, mx⟩ := i
  cases mn <;> cases mx <;> simp [Interval.merge, Interval.emptyI, Ext.le]

theorem aabbMerge_empty_left (b : Aabb) :
    aabbMerge ⟨Interval.emptyI, Interval.emptyI, Interval.emptyI⟩ b = b := by
  obtain ⟨bx, by', bz⟩ := b
  simp [aabbMerge, Interval.merge_emptyI_left]

theorem aabbEmpty_eq :
    aabbEmpty = ⟨Interval.emptyI, Interval.emptyI, Interval.emptyI⟩ := by
  norm_num [aabbEmpty, aabbOfIntervals, Aabb.padToMinimums, Interval.size,
    Interval.expand, Interval.emptyI, padDelta]

theorem bvhBuild_single (h : Hittable) :
    bvhBuild [h] = .node h h (bboxOf h) := by
  rw [bvhBuild]
  simp [bboxFold, aabbEmpty_eq, aabbMerge_empty_left]

/-- Claim C7: the recursive integrator called with depth budget 0
returns the zero color for every scene, oracle and ray, without
depending on the scene in any way. -/
theorem c7_depth_zero_is_black (world : Hittable) (oracle : Nat → RandSrc) (r : Ray) :
    rayColor world oracle r 0 = ⟨0, 0, 0⟩ := by
  simp [rayColor]

/-- Claim C10: the integrator's recursion is fuel-bounded: the
instrumented variant performs at most `depth` nested recursive calls
and computes exactly `rayColor`, for every scene, oracle, ray and
depth. -/
theorem c10_recursion_bounded (world : Hittable) (oracle : Nat → RandSrc)
    (r : Ray) (depth : Nat) :
    (rayColorSteps world oracle r depth).2 ≤ depth ∧
    (rayColorSteps world oracle r depth).1 = rayColor world oracle r depth := by
  induction depth generalizing r with
  | zero => simp [rayColorSteps, rayColor]
  | succ d ih =>
    rw [rayColorSteps, rayColor]
    set res := hitH world r ⟨.fin 0.001, .pinf⟩ defaultRec with hresdef
    by_cases hres : res.1
    · simp only [hres, if_true]
      set sc := Material.scatter res.2.mat r res.2 (oracle d) with hscdef
      by_cases hsc : sc.1
      · simp only [hsc, if_true]
        exact ⟨by have hd := (ih sc.2.2).1; omega, by rw [(ih sc.2.2).2]⟩
      · simp [hsc]
    · simp [hres]

/-- Claim C6 counterexample: a metal built with fuzz `-2` stores `-2`,
which is not clamped to 0 and lies outside `[0, 1]`. -/
theorem c6_counterexample :
    Material.fuzzOf (metalMk ⟨1, 1, 1⟩ (-2)) = -2 ∧
    ¬ (0 ≤ Material.fuzzOf (metalMk ⟨1, 1, 1⟩ (-2))) := by
  constructor
  · simp [metalMk, Material.fuzzOf]
    norm_num
  · simp [metalMk, Material.fuzzOf]
    norm_num

/-- Claim C6 (amended): the metal constructor only clamps from above:
the stored fuzz is at most 1, arguments below 1 (including negative
ones) are stored unchanged, and arguments of at least 1 are clamped
to 1. -/
theorem c6_metal_fuzz_clamped_above (albedo : Vec3) (f : ℝ) :
    Material.fuzzOf (metalMk albedo f) ≤ 1 ∧
    (f < 1 → Material.fuzzOf (metalMk albedo f) = f) ∧
    (1 ≤ f → Material.fuzzOf (metalMk albedo f) = 1) := by
  simp only [metalMk, Material.fuzzOf]
  split_ifs with h
  · exact ⟨le_of_lt h, fun _ => rfl, fun h1 => absurd h (not_lt.mpr h1)⟩
  · exact ⟨le_refl 1, fun h1 => absurd h1 h, fun _ => rfl⟩

/-- Witness for the amended C6 theorem at fuzz values `-2` and `3`. -/
theorem c6_metal_fuzz_clamped_above_witness :
    Material.fuzzOf (metalMk ⟨1, 1, 1⟩ (-2)) = -2 ∧
    Material.fuzzOf (metalMk ⟨1, 1, 1⟩ 3) = 1 :=
  ⟨(c6_metal_fuzz_clamped_above ⟨1, 1, 1⟩ (-2)).2.1 (by norm_num),
   (c6_metal_fuzz_clamped_above ⟨1, 1, 1⟩ 3).2.2 (by norm_num)⟩

theorem Interval.subset_merge_left {a b : Interval}
    (ha : a.nonEmptyI) (hb : b.nonEmptyI) : a.isSubsetOf (a.merge b) := by
  constructor
  · show Ext.le (Interval.merge a b).min a.min
    simp only [Interval.merge]
    split_ifs with h
    · exact Ext.le_refl_of_ne_nan (Ext.ne_nan_of_le_left ha)
    · exact Ext.le_of_not_le (Ext.ne_nan_of_le_left ha) (Ext.ne_nan_of_le_left hb) h
  · show Ext.le a.max (Interval.merge a b).max
    simp only [Interval.merge]
    split_ifs with h
    · exact Ext.le_refl_of_ne_nan (Ext.ne_nan_of_le_right ha)
    · exact Ext.le_of_not_le (Ext.ne_nan_of_le_right hb) (Ext.ne_nan_of_le_right ha) h

theorem Interval.subset_merge_right {a b : Interval}
    (ha : a.nonEmptyI) (hb : b.nonEmptyI) : b.isSubsetOf (a.merge b) := by
  constructor
  · show Ext.le (Interval.merge a b).min b.min
    simp only [Interval.merge]
    split_ifs with h
    · exact h
    · exact Ext.le_refl_of_ne_nan (Ext.ne_nan_of_le_left hb)
  · show Ext.le b.max (Interval.merge a b).max
    simp only [Interval.merge]
    split_ifs with h
    · exact h
    · exact Ext.le_refl_of_ne_nan (Ext.ne_nan_of_le_right hb)

/-- Claim C8: the merge constructor's box contains both inputs: for
non-empty boxes `a` and `b`, each axis interval of `a` and of `b` is
included in the corresponding axis interval of `aabbMerge a b`. -/
theorem c8_merge_contains_both (a b : Aabb)
    (hax : a.x.nonEmptyI) (hay : a.y.nonEmptyI) (haz : a.z.nonEmptyI)
    (hbx : b.x.nonEmptyI) (hby : b.y.nonEmptyI) (hbz : b.z.nonEmptyI) :
    (a.x.isSubsetOf (aabbMerge a b).x ∧ a.y.isSubsetOf (aabbMerge a b).y ∧
      a.z.isSubsetOf (aabbMerge a b).z) ∧
    (b.x.isSubsetOf (aabbMerge a b).x ∧ b.y.isSubsetOf (aabbMerge a b).y ∧
      b.z.isSubsetOf (aabbMerge a b).z) :=
  ⟨⟨Interval.subset_merge_left hax hbx, Interval.subset_merge_left hay hby,
    Interval.subset_merge_left haz hbz⟩,
   ⟨Interval.subset_merge_right hax hbx, Interval.subset_merge_right hay hby,
    Interval.subset_merge_right haz hbz⟩⟩

/-- Witness for C8 at two concrete non-empty unit boxes. -/
theorem c8_merge_contains_both_witness :
    (Interval.isSubsetOf ⟨.fin 0, .fin 1⟩
      (aabbMerge ⟨⟨.fin 0, .fin 1⟩, ⟨.fin 0, .fin 1⟩, ⟨.fin 0, .fin 1⟩⟩
        ⟨⟨.fin 2, .fin 3⟩, ⟨.fin 2, .fin 3⟩, ⟨.fin 2, .fin 3⟩⟩).x) ∧
    (Interval.isSubsetOf ⟨.fin 2, .fin 3⟩
      (aabbMerge ⟨⟨.fin 0, .fin 1⟩, ⟨.fin 0, .fin 1⟩, ⟨.fin 0, .fin 1⟩⟩
        ⟨⟨.fin 2, .fin 3⟩, ⟨.fin 2, .fin 3⟩, ⟨.fin 2, .fin 3⟩⟩).x) := by
  have h := c8_merge_contains_both
    ⟨⟨.fin 0, .fin 1⟩, ⟨.fin 0, .fin 1⟩, ⟨.fin 0, .fin 1⟩⟩
    ⟨⟨.fin 2, .fin 3⟩, ⟨.fin 2, .fin 3⟩, ⟨.fin 2, .fin 3⟩⟩
    (by norm_num [Interval.nonEmptyI]) (by norm_num [Interval.nonEmptyI])
    (by norm_num [Interval.nonEmptyI]) (by norm_num [Interval.nonEmptyI])
    (by norm_num [Interval.nonEmptyI]) (by norm_num [Interval.nonEmptyI])
  exact ⟨h.1.1, h.2.1⟩

/-- Claim C5: `sphere::hit` agrees with the claim's description: no hit
when the half-form discriminant is negative, otherwise the smaller root
when the interval surrounds it, else the larger root when the interval
surrounds that one, else no hit; the reported `t` is the selected
root. -/
theorem c5_root_selection (s : Sphere) (r : Ray) (rt : Interval) (rec : HitRec) :
    (sphereHitSpecT s r rt = none → sphereHit s r rt rec = (false, rec)) ∧
    (∀ t, sphereHitSpecT s r rt = some t →
      (sphereHit s r rt rec).1 = true ∧ (sphereHit s r rt rec).2.t = t) := by
  unfold sphereHitSpecT sphereHit
  split_ifs <;> simp_all

theorem front_disc_eval : sphereDisc frontSphere frontRay = 1/4 := by
  simp only [sphereDisc, sphereHcoef, sphereA, sphereCcoef, sphereOC, frontSphere, frontRay,
    sphereStatic_center, sphereStatic_radius]
  norm_num [Vec3.sub, Vec3.dot, Vec3.lengthSquared, max_def]

theorem front_h_eval : sphereHcoef frontSphere frontRay = 1 := by
  simp only [sphereHcoef, sphereOC, frontSphere, frontRay, sphereStatic_center]
  norm_num [Vec3.sub, Vec3.dot]

theorem front_a_eval : sphereA frontSphere frontRay = 1 := by
  simp only [sphereA, frontRay]
  norm_num [Vec3.lengthSquared]

theorem front_root1_eval : sphereRoot1 frontSphere frontRay = 1/2 := by
  rw [sphereRoot1, front_h_eval, front_a_eval, front_disc_eval,
    show (1/4 : ℝ) = (1/2)^2 by norm_num, Real.sqrt_sq (by norm_num)]
  norm_num

theorem front_spec_eval : sphereHitSpecT frontSphere frontRay queryAll = some (1/2) := by
  rw [sphereHitSpecT, front_disc_eval, front_root1_eval]
  norm_num [Interval.surrounds, queryAll]

/-- Witness for C5 at the spec's end-to-end scenario: the sphere of
radius 0.5 at `(0,0,-1)` queried from the origin reports the smaller
root `t = 0.5`. -/
theorem c5_root_selection_witness :
    sphereHitSpecT frontSphere frontRay queryAll = some (1/2) ∧
    (sphereHit frontSphere frontRay queryAll defaultRec).1 = true ∧
    (sphereHit frontSphere frontRay queryAll defaultRec).2.t = 1/2 :=
  ⟨front_spec_eval,
   (c5_root_selection frontSphere frontRay queryAll defaultRec).2 (1/2) front_spec_eval⟩

theorem hitList_false {l : List Hittable} {r : Ray} {tmin closest : Ext}
    {temp : HitRec} {hitAnything : Bool} {rec : HitRec}
    (h : (hitList l r tmin closest temp hitAnything rec).1 = false) :
    hitAnything = false ∧ (hitList l r tmin closest temp hitAnything rec).2 = rec := by
  induction l generalizing tmin closest temp hitAnything rec with
  | nil => simp_all [hitList]
  | cons hd tl ih =>
    simp only [hitList] at h ⊢
    by_cases hres : (hitH hd r ⟨tmin, closest⟩ temp).1
    · simp only [hres, if_true] at h ⊢
      exact absurd (ih h).1 (by simp)
    · simp only [hres, if_false, Bool.false_eq_true] at h ⊢
      exact (ih h)

theorem hit_frame_aux : ∀ (n : Nat) (h : Hittable), sizeOf h ≤ n →
    ∀ (r : Ray) (rt : Interval) (rec : HitRec),
    (hitH h r rt rec).1 = false → (hitH h r rt rec).2 = rec := by
  intro n
  induction n with
  | zero =>
    intro h hle
    cases h <;> simp at hle
  | succ n ih =>
    intro h hle r rt rec hfalse
    match h with
    | .sph s =>
      simp only [hitH] at hfalse ⊢
      unfold sphereHit at hfalse ⊢
      split_ifs at hfalse ⊢ <;> simp_all
    | .lst hs =>
      simp only [hitH] at hfalse ⊢
      exact (hitList_false hfalse).2
    | .node lft rgt bb =>
      simp only [hitH] at hfalse ⊢
      cases hbox : aabbHit bb r rt with
      | false => simp [hbox]
      | true =>
        simp only [hbox, Bool.true_eq_false, if_false] at hfalse ⊢
        have hsz : sizeOf (Hittable.node lft rgt bb) ≤ n + 1 := hle
        simp only [Hittable.node.sizeOf_spec] at hsz
        have hlsz : sizeOf lft ≤ n := by omega
        have hrsz : sizeOf rgt ≤ n := by omega
        rw [Bool.or_eq_false_iff] at hfalse
        have hL := ih lft hlsz r rt rec hfalse.1
        have hR := ih rgt hrsz r
          ⟨rt.min, if (hitH lft r rt rec).1 = true then .fin (hitH lft r rt rec).2.t else rt.max⟩
          (hitH lft r rt rec).2 hfalse.2
        rw [hR, hL]

/-- Claim C9: for every hittable variant, ray and query interval, a hit
query that returns false leaves the caller's hit record exactly as it
was. -/
theorem c9_no_hit_preserves_record (h : Hittable) (r : Ray) (rt : Interval) (rec : HitRec)
    (hfalse : (hitH h r rt rec).1 = false) : (hitH h r rt rec).2 = rec :=
  hit_frame_aux (sizeOf h) h le_rfl r rt rec hfalse

theorem miss_disc_eval : sphereDisc missSphere missRay = -99 := by
  simp only [sphereDisc, sphereHcoef, sphereA, sphereCcoef, sphereOC, missSphere, missRay,
    sphereStatic_center, sphereStatic_radius]
  norm_num [Vec3.sub, Vec3.dot, Vec3.lengthSquared, max_def]

theorem miss_hit_eval :
    (hitH (.sph missSphere) missRay queryAll defaultRec).1 = false := by
  simp only [hitH]
  rw [sphereHit, miss_disc_eval]
  norm_num

/-- Witness for C9: a ray that misses a sphere outright leaves the
default record untouched. -/
theorem c9_no_hit_preserves_record_witness :
    (hitH (.sph missSphere) missRay queryAll defaultRec).2 = defaultRec :=
  c9_no_hit_preserves_record (.sph missSphere) missRay queryAll defaultRec miss_hit_eval

/-- Claim C3 failing input: a box whose y axis is degenerate
(`[5, 5]`, size 0, below the `1e-4` minimum) keeps its degenerate y
interval after construction, while the x axis — which had size 1 and
needed no padding — is overwritten with the padded y interval. -/
theorem c3_pad_leaves_thin_axis :
    (aabbOfIntervals ⟨.fin 0, .fin 1⟩ ⟨.fin 5, .fin 5⟩ ⟨.fin 0, .fin 1⟩).y =
      ⟨.fin 5, .fin 5⟩ ∧
    Ext.lt (aabbOfIntervals ⟨.fin 0, .fin 1⟩ ⟨.fin 5, .fin 5⟩ ⟨.fin 0, .fin 1⟩).y.size
      (.fin padDelta) ∧
    (aabbOfIntervals ⟨.fin 0, .fin 1⟩ ⟨.fin 5, .fin 5⟩ ⟨.fin 0, .fin 1⟩).x =
      ⟨.fin 4.99995, .fin 5.00005⟩ := by
  norm_num [aabbOfIntervals, Aabb.padToMinimums, Interval.size, Interval.expand, padDelta]

theorem exit_unit_eval : Vec3.unitVector exitRay.dir = ⟨3/5, -4/5, 0⟩ := by
  simp only [Vec3.unitVector, Vec3.length, exitRay]
  rw [show Vec3.lengthSquared ⟨3/5, -4/5, 0⟩ = 1 by norm_num, Real.sqrt_one]
  simp only [Vec3.divs, Vec3.smul_def]
  norm_num

theorem exit_cos_eval :
    min (Vec3.dot (Vec3.unitVector exitRay.dir).neg exitRec.normal) 1 = 4/5 := by
  rw [exit_unit_eval]
  norm_num [exitRec, min_def]

theorem exit_sin_eval : Real.sqrt (1 - (4/5 : ℝ) * (4/5)) = 3/5 := by
  rw [show (1 - (4/5 : ℝ) * (4/5)) = (3/5)^2 by norm_num, Real.sqrt_sq (by norm_num)]

theorem exit_scatter_dir_x :
    (dielectricScatter 2 exitRay exitRec smallDraw).2.2.dir.x = 6/5 := by
  simp only [dielectricScatter]
  rw [exit_unit_eval]
  simp only [exitRec, Bool.false_eq_true, if_false, exit_cos_eval]
  rw [if_pos]
  · simp only [Vec3.refract]
    norm_num [min_def]
  · right
    norm_num [reflectance, smallDraw]

theorem exit_reflect_x :
    (Vec3.reflect (Vec3.unitVector exitRay.dir) exitRec.normal).x = 3/5 := by
  rw [exit_unit_eval]
  norm_num [Vec3.reflect, exitRec]

/-- Claim C2 failing input: a ray exiting a dielectric of index 2 with
`cos_theta = 4/5`, so `ri * sin_theta = 6/5 > 1` (total internal
reflection), with a uniform draw of `0.01` below the Schlick
reflectance: the code emits the refracted direction (x component 6/5),
not the mirror reflection (x component 3/5). -/
theorem c2_tir_not_reflected :
    1 < 2 * Real.sqrt (1 -
      min (Vec3.dot (Vec3.unitVector exitRay.dir).neg exitRec.normal) 1 *
      min (Vec3.dot (Vec3.unitVector exitRay.dir).neg exitRec.normal) 1) ∧
    (dielectricScatter 2 exitRay exitRec smallDraw).2.2.dir.x = 6/5 ∧
    (dielectricScatter 2 exitRay exitRec smallDraw).2.2.dir ≠
      Vec3.reflect (Vec3.unitVector exitRay.dir) exitRec.normal := by
  refine ⟨?_, exit_scatter_dir_x, ?_⟩
  · rw [exit_cos_eval, exit_sin_eval]
    norm_num
  · intro heq
    have hx := exit_scatter_dir_x
    rw [heq, exit_reflect_x] at hx
    norm_num at hx

@[simp] theorem queryAll_min : queryAll.min = .fin 0.001 := by
  norm_num [queryAll]

@[simp] theorem queryAll_max : queryAll.max = .pinf := rfl

theorem thinX_bbox_eval : thinSphereX.bbox =
    ⟨⟨.fin (-(3/50000)), .fin (3/50000)⟩,
     ⟨.fin (-(1/100000)), .fin (1/100000)⟩,
     ⟨.fin (-(1/100000)), .fin (1/100000)⟩⟩ := by
  norm_num [thinSphereX, sphereStatic, aabbOfPoints, Aabb.padToMinimums,
    Interval.expand, Interval.size, padDelta]

theorem thinZ_bbox_eval : thinSphereZ.bbox =
    ⟨⟨.fin (9999994/100000), .fin (10000006/100000)⟩,
     ⟨.fin (-(1/100000)), .fin (1/100000)⟩,
     ⟨.fin (9999999/100000), .fin (10000001/100000)⟩⟩ := by
  norm_num [thinSphereZ, sphereStatic, aabbOfPoints, Aabb.padToMinimums,
    Interval.expand, Interval.size, padDelta]

theorem thinX_box_reject :
    aabbHit thinSphereX.bbox rayAtThinX ⟨.fin 0.001, .pinf⟩ = false := by
  rw [thinX_bbox_eval]
  norm_num [aabbHit, slabAxis, rayAtThinX]

theorem thinZ_box_pass :
    aabbHit thinSphereZ.bbox listRayZ ⟨.fin 0.001, .pinf⟩ = true := by
  rw [thinZ_bbox_eval]
  norm_num [aabbHit, slabAxis, listRayZ]

theorem thinZ_box_reject_shrunk :
    aabbHit thinSphereZ.bbox listRayZ ⟨.fin 0.001, .fin 49⟩ = false := by
  rw [thinZ_bbox_eval]
  norm_num [aabbHit, slabAxis, listRayZ]

theorem thinX_disc_eval : sphereDisc thinSphereX rayAtThinX = 1/10000000000 := by
  simp only [sphereDisc, sphereHcoef, sphereA, sphereCcoef, sphereOC, thinSphereX, rayAtThinX,
    sphereStatic_center, sphereStatic_radius]
  norm_num [Vec3.sub, Vec3.dot, Vec3.lengthSquared, max_def]

theorem thinX_h_eval : sphereHcoef thinSphereX rayAtThinX = 1 := by
  simp only [sphereHcoef, sphereOC, thinSphereX, rayAtThinX, sphereStatic_center]
  norm_num [Vec3.sub, Vec3.dot]

theorem thinX_a_eval : sphereA thinSphereX rayAtThinX = 1 := by
  simp only [sphereA, rayAtThinX]
  norm_num [Vec3.lengthSquared]

theorem thinX_root1_eval : sphereRoot1 thinSphereX rayAtThinX = 99999/100000 := by
  rw [sphereRoot1, thinX_h_eval, thinX_a_eval, thinX_disc_eval,
    show (1/10000000000 : ℝ) = (1/100000)^2 by norm_num, Real.sqrt_sq (by norm_num)]
  norm_num

theorem thinX_sphereHit_eval :
    sphereHit thinSphereX rayAtThinX ⟨.fin 0.001, .pinf⟩ defaultRec =
      (true, sphereWriteRec thinSphereX rayAtThinX (99999/100000)) := by
  rw [sphereHit, thinX_disc_eval, thinX_root1_eval]
  norm_num [Interval.surrounds]

theorem thinZ_disc_eval : sphereDisc thinSphereZ listRayZ = 1/10000000000 := by
  simp only [sphereDisc, sphereHcoef, sphereA, sphereCcoef, sphereOC, thinSphereZ, listRayZ,
    sphereStatic_center, sphereStatic_radius]
  norm_num [Vec3.sub, Vec3.dot, Vec3.lengthSquared, max_def]

theorem thinZ_h_eval : sphereHcoef thinSphereZ listRayZ = 1 := by
  simp only [sphereHcoef, sphereOC, thinSphereZ, listRayZ, sphereStatic_center]
  norm_num [Vec3.sub, Vec3.dot]

theorem thinZ_a_eval : sphereA thinSphereZ listRayZ = 1 := by
  simp only [sphereA, listRayZ]
  norm_num [Vec3.lengthSquared]

theorem thinZ_root1_eval : sphereRoot1 thinSphereZ listRayZ = 99999/100000 := by
  rw [sphereRoot1, thinZ_h_eval, thinZ_a_eval, thinZ_disc_eval,
    show (1/10000000000 : ℝ) = (1/100000)^2 by norm_num, Real.sqrt_sq (by norm_num)]
  norm_num

theorem thinZ_root2_eval : sphereRoot2 thinSphereZ listRayZ = 100001/100000 := by
  rw [sphereRoot2, thinZ_h_eval, thinZ_a_eval, thinZ_disc_eval,
    show (1/10000000000 : ℝ) = (1/100000)^2 by norm_num, Real.sqrt_sq (by norm_num)]
  norm_num

theorem thinZ_sphereHit_eval :
    sphereHit thinSphereZ listRayZ ⟨.fin 0.001, .pinf⟩ defaultRec =
      (true, sphereWriteRec thinSphereZ listRayZ (99999/100000)) := by
  rw [sphereHit, thinZ_disc_eval, thinZ_root1_eval]
  norm_num [Interval.surrounds]

theorem thinZ_sphereHit_shrunk_eval (rec : HitRec) :
    sphereHit thinSphereZ listRayZ ⟨.fin 0.001, .fin (99999/100000)⟩ rec =
      (false, rec) := by
  rw [sphereHit, thinZ_disc_eval, thinZ_root1_eval, thinZ_root2_eval]
  norm_num [Interval.surrounds]

theorem far_disc_eval : sphereDisc farSphere listRayZ = 1 := by
  simp only [sphereDisc, sphereHcoef, sphereA, sphereCcoef, sphereOC, farSphere, listRayZ,
    sphereStatic_center, sphereStatic_radius]
  norm_num [Vec3.sub, Vec3.dot, Vec3.lengthSquared, max_def]

theorem far_h_eval : sphereHcoef farSphere listRayZ = 50 := by
  simp only [sphereHcoef, sphereOC, farSphere, listRayZ, sphereStatic_center]
  norm_num [Vec3.sub, Vec3.dot]

theorem far_a_eval : sphereA farSphere listRayZ = 1 := by
  simp only [sphereA, listRayZ]
  norm_num [Vec3.lengthSquared]

theorem far_root1_eval : sphereRoot1 farSphere listRayZ = 49 := by
  rw [sphereRoot1, far_h_eval, far_a_eval, far_disc_eval, Real.sqrt_one]
  norm_num

theorem far_sphereHit_eval :
    sphereHit farSphere listRayZ ⟨.fin 0.001, .pinf⟩ defaultRec =
      (true, sphereWriteRec farSphere listRayZ 49) := by
  rw [sphereHit, far_disc_eval, far_root1_eval]
  norm_num [Interval.surrounds]

theorem queryAll_eq : queryAll = ⟨.fin 0.001, .pinf⟩ := rfl

theorem c1_bvh_eval :
    hitH (bvhBuild [.sph thinSphereX]) rayAtThinX queryAll defaultRec =
      (false, defaultRec) := by
  rw [bvhBuild_single, queryAll_eq]
  simp only [hitH, bboxOf]
  simp [thinX_box_reject]

theorem c1_list_eval :
    hitH (.lst [.sph thinSphereX]) rayAtThinX queryAll defaultRec =
      (true, sphereWriteRec thinSphereX rayAtThinX (99999/100000)) := by
  rw [queryAll_eq]
  simp only [hitH, hitList]
  simp [thinX_sphereHit_eval, hitList]

/-- Claim C1 failing input: a single-primitive scene holding the thin
sphere at `(100,0,0)` whose box was corrupted by `pad_to_minimums`,
queried by a ray aimed straight at the sphere's center: the BVH rejects
the ray at its root box and reports no hit, while the linear-scan list
reports the hit at `t = 0.99999`. -/
theorem c1_bvh_disagrees_with_list :
    (hitH (bvhBuild [.sph thinSphereX]) rayAtThinX queryAll defaultRec).1 = false ∧
    (hitH (.lst [.sph thinSphereX]) rayAtThinX queryAll defaultRec).1 = true ∧
    (hitH (.lst [.sph thinSphereX]) rayAtThinX queryAll defaultRec).2.t = 99999/100000 := by
  rw [c1_bvh_eval, c1_list_eval]
  simp

theorem c4_member_full_eval :
    hitH (bvhBuild [.sph thinSphereZ]) listRayZ queryAll defaultRec =
      (true, sphereWriteRec thinSphereZ listRayZ (99999/100000)) := by
  rw [bvhBuild_single, queryAll_eq]
  simp only [hitH, bboxOf]
  simp [thinZ_box_pass, thinZ_sphereHit_eval, thinZ_sphereHit_shrunk_eval]

theorem c4_member_shrunk_eval (rec : HitRec) :
    hitH (bvhBuild [.sph thinSphereZ]) listRayZ ⟨.fin 0.001, .fin 49⟩ rec =
      (false, rec) := by
  rw [bvhBuild_single]
  simp only [hitH, bboxOf]
  simp [thinZ_box_reject_shrunk]

theorem c4_scene_eval :
    hitH twoMemberScene listRayZ queryAll defaultRec =
      (true, sphereWriteRec farSphere listRayZ 49) := by
  rw [queryAll_eq, twoMemberScene]
  simp only [hitH, hitList]
  simp [far_sphereHit_eval, c4_member_shrunk_eval, hitList]

/-- Claim C4 failing input: the two-member list whose second member is
a BVH node with a box corrupted by `pad_to_minimums`: the list reports
the first member's hit at `t = 49`, although the second member, queried
with the same original interval, reports `t = 0.99999 < 49` — the
returned hit is not minimal among member hits inside the interval. -/
theorem c4_list_hit_not_minimal :
    (hitH twoMemberScene listRayZ queryAll defaultRec).1 = true ∧
    (hitH twoMemberScene listRayZ queryAll defaultRec).2.t = 49 ∧
    (hitH (bvhBuild [.sph thinSphereZ]) listRayZ queryAll defaultRec).1 = true ∧
    (hitH (bvhBuild [.sph thinSphereZ]) listRayZ queryAll defaultRec).2.t = 99999/100000 ∧
    (99999/100000 : ℝ) < 49 := by
  rw [c4_scene_eval, c4_member_full_eval]
  norm_num

end Graphics
